import Mathlib

/-!
Verification of the peer-observer rpc-extractor against its specification.

Part 1 embeds `src/extractors/rpc/src/metrics.rs` together with the
prometheus-client semantics it relies on (custom registries, counter
vectors, histogram vectors).  Part 2 embeds `prepare_connection` from
`src/shared/src/nats_util.rs`.  Part 3 models the extraction scheduler
described in the specification (its implementation is not part of the
sources at hand, only its tests are).
-/

/-! ## Part 1: prometheus-style metrics (`src/extractors/rpc/src/metrics.rs`) -/

/-- A prometheus integer counter vector: a family of counters indexed by
label values (one counter per vector of label values, all starting at 0). -/
structure IntCounterVec where
  name : String
  labelNames : List String
  counts : List String → Nat

/-- A prometheus histogram vector: a family of histograms indexed by label
values; we track per-child sample count and sample sum, plus the
configured bucket bounds. -/
structure HistogramVec where
  name : String
  labelNames : List String
  buckets : List ℚ
  counts : List String → Nat
  sums : List String → ℚ

/-- A prometheus registry: the optional namespace given to
`Registry::new_custom` and the fully-qualified names registered so far. -/
structure Registry where
  pfx : Option String
  names : List String

/-- First character allowed in a prometheus metric name. -/
def isMetricNameStart (c : Char) : Bool :=
  c.isAlpha || c = '_' || c = ':'

/-- Non-first character allowed in a prometheus metric name. -/
def isMetricNameChar (c : Char) : Bool :=
  c.isAlphanum || c = '_' || c = ':'

/-- Validity of a prometheus metric name (regex `[a-zA-Z_:][a-zA-Z0-9_:]*`). -/
def metricNameValid (s : String) : Bool :=
  match s.toList with
  | [] => false
  | c :: cs => isMetricNameStart c && cs.all isMetricNameChar

/-- First character allowed in a prometheus label name. -/
def isLabelNameStart (c : Char) : Bool :=
  c.isAlpha || c = '_'

/-- Non-first character allowed in a prometheus label name. -/
def isLabelNameChar (c : Char) : Bool :=
  c.isAlphanum || c = '_'

/-- Whether a name starts with the reserved `__` marker. -/
def startsWithDoubleUnderscore (s : String) : Bool :=
  match s.toList with
  | '_' :: '_' :: _ => true
  | _ => false

/-- Validity of a prometheus label name (regex `[a-zA-Z_][a-zA-Z0-9_]*`,
names starting with `__` are reserved and rejected). -/
def labelNameValid (s : String) : Bool :=
  match s.toList with
  | [] => false
  | c :: cs => isLabelNameStart c && cs.all isLabelNameChar && !(startsWithDoubleUnderscore s)

/-- Fully-qualified metric name under an optional namespace, as prometheus
builds it: `namespace_name` when a namespace is present. -/
def fqOf (ns : Option String) (n : String) : String :=
  match ns with
  | some p => p ++ "_" ++ n
  | none => n

/-- `Registry::new_custom(prefix, None)`: fails on an empty namespace
string, otherwise yields a fresh registry with no collectors. -/
def Registry.new_custom (ns : Option String) : Except String Registry :=
  match ns with
  | some p => if p = "" then .error "empty prefix namespace" else .ok ⟨some p, []⟩
  | none => .ok ⟨none, []⟩

/-- Fully-qualified name of a metric inside a registry. -/
def Registry.fqName (r : Registry) (n : String) : String :=
  fqOf r.pfx n

/-- Registering a collector: the fully-qualified name must be a valid
metric name, every label name must be valid, and the fully-qualified name
must not already be registered. -/
def Registry.register (r : Registry) (n : String) (labels : List String) :
    Except String Registry :=
  if metricNameValid (r.fqName n) = false then .error "invalid metric name"
  else if labels.all labelNameValid = false then .error "invalid label name"
  else if r.names.contains (r.fqName n) then
    .error "duplicate metrics collector registration attempted"
  else .ok ⟨r.pfx, r.fqName n :: r.names⟩

/-- `const NAMESPACE: &str = "rpcextractor"`. -/
def NAMESPACE : String := "rpcextractor"

/-- `pub const LABEL_RPC_METHOD: &str = "rpc_method"`. -/
def LABEL_RPC_METHOD : String := "rpc_method"

/-- `const RPC_DURATION_BUCKETS: [f64; 12]` (exact decimal values). -/
def RPC_DURATION_BUCKETS : List ℚ :=
  [0.001, 0.005, 0.01, 0.025, 0.05, 0.1, 0.25, 0.5, 1.0, 2.5, 5.0, 10.0]

/-- A freshly created histogram vector: every child has 0 samples. -/
def HistogramVec.new (name : String) (labelNames : List String)
    (buckets : List ℚ) : HistogramVec :=
  ⟨name, labelNames, buckets, fun _ => 0, fun _ => 0⟩

/-- A freshly created counter vector: every child counter reads 0. -/
def IntCounterVec.new (name : String) (labelNames : List String) : IntCounterVec :=
  ⟨name, labelNames, fun _ => 0⟩

/-- The `Metrics` struct of the rpc-extractor: its own registry plus the
three metric families. -/
structure Metrics where
  registry : Registry
  rpc_fetch_duration : HistogramVec
  rpc_fetch_errors : IntCounterVec
  nats_publish_errors : IntCounterVec

/-- The registration chain of `Metrics::new`: register the duration
histogram, the fetch-error counter and the publish-error counter, each
labeled by `LABEL_RPC_METHOD`; `none` represents the `.expect(...)` panic
on a failed registration. -/
def Metrics.registerAll (registry : Registry) (n1 n2 n3 : String) : Option Metrics :=
  match registry.register n1 [LABEL_RPC_METHOD] with
  | .error _ => none
  | .ok r1 =>
  match r1.register n2 [LABEL_RPC_METHOD] with
  | .error _ => none
  | .ok r2 =>
  match r2.register n3 [LABEL_RPC_METHOD] with
  | .error _ => none
  | .ok r3 =>
  some
    { registry := r3
      rpc_fetch_duration := HistogramVec.new n1 [LABEL_RPC_METHOD] RPC_DURATION_BUCKETS
      rpc_fetch_errors := IntCounterVec.new n2 [LABEL_RPC_METHOD]
      nats_publish_errors := IntCounterVec.new n3 [LABEL_RPC_METHOD] }

/-- The body of `Metrics::new`, with the namespace and the three metric
names as parameters and each `.expect(...)` panic represented by `none`:
create the custom registry, then run the registration chain. -/
def Metrics.newChecked (ns : Option String) (n1 n2 n3 : String) : Option Metrics :=
  match Registry.new_custom ns with
  | .error _ => none
  | .ok registry => Metrics.registerAll registry n1 n2 n3

/-- `Metrics::new()`: the value produced by the (successful) registration
chain with the concrete namespace and metric names of the source. -/
def Metrics.new : Metrics :=
  { registry :=
      ⟨some NAMESPACE,
        [fqOf (some NAMESPACE) "nats_publish_errors_total",
         fqOf (some NAMESPACE) "rpc_fetch_errors_total",
         fqOf (some NAMESPACE) "rpc_fetch_duration_seconds"]⟩
    rpc_fetch_duration :=
      HistogramVec.new "rpc_fetch_duration_seconds" [LABEL_RPC_METHOD] RPC_DURATION_BUCKETS
    rpc_fetch_errors := IntCounterVec.new "rpc_fetch_errors_total" [LABEL_RPC_METHOD]
    nats_publish_errors := IntCounterVec.new "nats_publish_errors_total" [LABEL_RPC_METHOD] }

/-- `with_label_values(lvs).inc()` on a counter vector. -/
def IntCounterVec.inc (c : IntCounterVec) (lvs : List String) : IntCounterVec :=
  { c with counts := fun l => if l = lvs then c.counts l + 1 else c.counts l }

/-- `with_label_values(lvs).get()` on a counter vector. -/
def IntCounterVec.get (c : IntCounterVec) (lvs : List String) : Nat :=
  c.counts lvs

/-- `with_label_values(lvs).observe(v)` on a histogram vector (also what a
timer started by `start_timer()` performs when it is dropped). -/
def HistogramVec.observe (h : HistogramVec) (lvs : List String) (v : ℚ) : HistogramVec :=
  { h with
    counts := fun l => if l = lvs then h.counts l + 1 else h.counts l
    sums := fun l => if l = lvs then h.sums l + v else h.sums l }

/-- `with_label_values(lvs).get_sample_count()` on a histogram vector. -/
def HistogramVec.get_sample_count (h : HistogramVec) (lvs : List String) : Nat :=
  h.counts lvs

/-- Record one completed duration measurement for a method: one histogram
observation on `rpc_fetch_duration` labeled by the method name. -/
def Metrics.observeDuration (m : Metrics) (method : String) (elapsed : ℚ) : Metrics :=
  { m with rpc_fetch_duration := m.rpc_fetch_duration.observe [method] elapsed }

/-- Record one RPC fetch error for a method:
`rpc_fetch_errors.with_label_values(&[method]).inc()`. -/
def Metrics.recordFetchError (m : Metrics) (method : String) : Metrics :=
  { m with rpc_fetch_errors := m.rpc_fetch_errors.inc [method] }

/-- Record one NATS publish error for a method:
`nats_publish_errors.with_label_values(&[method]).inc()`. -/
def Metrics.recordPublishError (m : Metrics) (method : String) : Metrics :=
  { m with nats_publish_errors := m.nats_publish_errors.inc [method] }

/-- A metric operation performed through a `Metrics` instance. -/
inductive MetricOp where
  | fetchError (method : String)
  | publishError (method : String)
  | observeDur (method : String) (elapsed : ℚ)

/-- Apply one metric operation to an instance. -/
def Metrics.applyOp (m : Metrics) : MetricOp → Metrics
  | .fetchError method => m.recordFetchError method
  | .publishError method => m.recordPublishError method
  | .observeDur method elapsed => m.observeDuration method elapsed

/-- Apply a sequence of metric operations to an instance. -/
def Metrics.applyOps (m : Metrics) (ops : List MetricOp) : Metrics :=
  ops.foldl Metrics.applyOp m

/-- Two coexisting `Metrics` instances; operations routed to the first. -/
def opsOnFst (ops : List MetricOp) (w : Metrics × Metrics) : Metrics × Metrics :=
  (w.1.applyOps ops, w.2)

/-- Two coexisting `Metrics` instances; operations routed to the second. -/
def opsOnSnd (ops : List MetricOp) (w : Metrics × Metrics) : Metrics × Metrics :=
  (w.1, w.2.applyOps ops)

/-! ## Part 2: `prepare_connection` (`src/shared/src/nats_util.rs`) -/

/-- The `NatsArgs` CLI argument struct. -/
structure NatsArgs where
  address : String
  username : Option String
  password : Option String
  password_file : Option String

/-- `async_nats::ConnectOptions`: we track only what `prepare_connection`
sets, namely the optional `(user, password)` pair. -/
structure ConnectOptions where
  auth : Option (String × String)
deriving DecidableEq

/-- `ConnectOptions::new()`. -/
def ConnectOptions.new : ConnectOptions := ⟨none⟩

/-- `ConnectOptions::user_and_password(user, pass)`. -/
def ConnectOptions.user_and_password (o : ConnectOptions) (user pass : String) :
    ConnectOptions :=
  { o with auth := some (user, pass) }

/-- A model of `fs::read_to_string`: maps a path to the file contents or
an io error (the error carried as a message string). -/
def FileSystem : Type := String → Except String String

/-- The observable outcome of `prepare_connection`: an `Ok` value, an
`Err` propagated by the `?` operator, or a panic (the `unwrap()` call). -/
inductive PrepareOutcome where
  | ok (opts : ConnectOptions)
  | err (e : String)
  | panicked
deriving DecidableEq

/-- `prepare_connection(args)`: with a username, pick the explicit
password if present, else try to read (and trim) the password file,
propagating a read error with `?`; then call `pass.unwrap()` — a panic
when no password was obtained.  Without a username, plain options. -/
def prepare_connection (fs : FileSystem) (args : NatsArgs) : PrepareOutcome :=
  match args.username with
  | some user =>
    let passRead : Except String (Option String) :=
      match args.password with
      | some password => .ok (some password)
      | none =>
        match args.password_file with
        | some pw_file =>
          match fs pw_file with
          | .ok contents => .ok (some contents.trim)
          | .error e => .error e
        | none => .ok none
    match passRead with
    | .error e => .err e
    | .ok (some pass) => .ok (ConnectOptions.new.user_and_password user pass)
    | .ok none => .panicked
  | none => .ok ConnectOptions.new

/-! ## Part 3: the extraction scheduler

Modelled from the spec: the scheduler implementation (`rpc_extractor::run`
and its catalog/fetcher/publisher) is not among the sources at hand, only
its integration tests are; the definitions below follow §3–§5 of the
specification: per-method due counters, at-most-one in-flight call per
method with skip-on-busy, cooperative shutdown with drain, and a bounded
per-call timeout. Time is measured in base ticks; one `schedStep` is one
base tick, and the environment decides which in-flight calls resolve
during that tick and whether the shutdown signal arrives. -/

/-- Modelled from the spec: a `MethodSpec` of the MethodCatalog —
`{name, enabled, cadenceMultiplier}`. -/
structure MethodSpec where
  name : String
  enabled : Bool
  cadence : Nat

/-- Modelled from the spec: the static configuration the scheduler runs
with — the method catalog and the per-call timeout (in base ticks). -/
structure SchedConfig where
  specs : List MethodSpec
  timeout : Nat

/-- Modelled from the spec: what the environment does during one base
tick — for each method, whether its in-flight call resolves now
(`some true` success, `some false` classified failure, `none` still
running), and whether the shutdown signal arrives. -/
structure SchedEnv where
  resolve : String → Option Bool
  shutdownNow : Bool

/-- Modelled from the spec: the scheduler state — per-method due
counters, per-method count of in-flight calls, per-method remaining time
budget of the in-flight call, the shutdown flag, the terminal `Stopped`
flag, and the recorded metrics (duration observations and error counts
per method). -/
structure SchedState where
  due : String → Nat
  inflight : String → Nat
  remaining : String → Nat
  shutdown : Bool
  stopped : Bool
  durCount : String → Nat
  errCount : String → Nat

/-- The catalog entry for a method name, if any. -/
def SchedConfig.findSpec (cfg : SchedConfig) (m : String) : Option MethodSpec :=
  cfg.specs.find? (fun sp => sp.name == m)

/-- Whether method `m`'s in-flight call resolves during this tick: either
the environment resolves it, or its remaining budget forces a timeout
resolution. -/
def resolves (env : SchedEnv) (s : SchedState) (m : String) : Bool :=
  s.inflight m != 0 && ((env.resolve m).isSome || decide (s.remaining m ≤ 1))

/-- Whether the resolution of `m` this tick is a failure (an explicit
failure outcome, or a forced timeout). -/
def failedNow (env : SchedEnv) (s : SchedState) (m : String) : Bool :=
  resolves env s m && (env.resolve m != some true)

/-- In-flight count of `m` after the resolution phase of this tick. -/
def inflightAfterResolve (env : SchedEnv) (s : SchedState) (m : String) : Nat :=
  if resolves env s m then s.inflight m - 1 else s.inflight m

/-- Remaining budget of `m` after the resolution phase of this tick. -/
def remainingAfterResolve (env : SchedEnv) (s : SchedState) (m : String) : Nat :=
  if resolves env s m then 0
  else if s.inflight m != 0 then s.remaining m - 1
  else s.remaining m

/-- Whether method `m` fires on this tick: it is in the due set
(`enabled ∧ due % cadence = 0`) and — the no-overlap tie-break — no call
of `m` is still in flight after this tick's resolutions. -/
def firedNow (cfg : SchedConfig) (env : SchedEnv) (s : SchedState) (m : String) : Bool :=
  match cfg.findSpec m with
  | some sp => sp.enabled && (s.due m % sp.cadence == 0) && (inflightAfterResolve env s m == 0)
  | none => false

/-- Modelled from the spec: one base tick of the scheduler.  A stopped
state is terminal.  Otherwise resolve in-flight calls per the
environment (forcing a timeout resolution when the budget is exhausted),
recording one duration observation per resolved call and one error per
failed call.  If the shutdown signal has been observed, dispatch nothing
and stop once no call remains in flight; otherwise dispatch the due set
(skipping methods still in flight), give each dispatched call the
configured timeout budget, and update the due counters. -/
def schedStep (cfg : SchedConfig) (env : SchedEnv) (s : SchedState) : SchedState :=
  if s.stopped then s
  else if s.shutdown || env.shutdownNow then
    { due := s.due
      inflight := fun m => inflightAfterResolve env s m
      remaining := fun m => remainingAfterResolve env s m
      shutdown := true
      stopped := cfg.specs.all (fun sp => inflightAfterResolve env s sp.name == 0)
      durCount := fun m => s.durCount m + (if resolves env s m then 1 else 0)
      errCount := fun m => s.errCount m + (if failedNow env s m then 1 else 0) }
  else
    { due := fun m =>
        if firedNow cfg env s m then 0
        else
          match cfg.findSpec m with
          | some sp => if sp.enabled then s.due m + 1 else s.due m
          | none => s.due m
      inflight := fun m =>
        if firedNow cfg env s m then inflightAfterResolve env s m + 1
        else inflightAfterResolve env s m
      remaining := fun m =>
        if firedNow cfg env s m then cfg.timeout else remainingAfterResolve env s m
      shutdown := false
      stopped := false
      durCount := fun m => s.durCount m + (if resolves env s m then 1 else 0)
      errCount := fun m => s.errCount m + (if failedNow env s m then 1 else 0) }

/-- Modelled from the spec: the initial scheduler state — no call in
flight, shutdown not observed, no metric recorded, every due counter at
its starting value. -/
def schedInit : SchedState :=
  { due := fun _ => 1
    inflight := fun _ => 0
    remaining := fun _ => 0
    shutdown := false
    stopped := false
    durCount := fun _ => 0
    errCount := fun _ => 0 }

/-- Run one scheduler tick per environment in the list. -/
def stepMany (cfg : SchedConfig) (envs : List SchedEnv) (s : SchedState) : SchedState :=
  envs.foldl (fun st e => schedStep cfg e st) s

/-- The states the scheduler can reach from the initial state. -/
inductive SchedReachable (cfg : SchedConfig) : SchedState → Prop where
  | init : SchedReachable cfg schedInit
  | step {s : SchedState} (env : SchedEnv) :
      SchedReachable cfg s → SchedReachable cfg (schedStep cfg env s)

/-- The inductive invariant of the scheduler: at most one in-flight call
per method, every in-flight call's budget is bounded by the configured
timeout, only catalog methods are ever in flight, and a stopped state has
observed shutdown with nothing in flight. -/
def SchedInv (cfg : SchedConfig) (s : SchedState) : Prop :=
  (∀ m, s.inflight m ≤ 1) ∧
  (∀ m, s.inflight m ≠ 0 → s.remaining m ≤ cfg.timeout) ∧
  (∀ m, cfg.findSpec m = none → s.inflight m = 0) ∧
  (s.stopped = true → s.shutdown = true ∧ ∀ m, s.inflight m = 0)

/-! ## Theorems -/

/-- The single label of every family of `Metrics::new` is valid. -/
lemma label_rpc_method_valid : labelNameValid LABEL_RPC_METHOD = true := by
  rfl

/-- Characterization of a failing registration chain on a fresh registry:
it fails exactly when one of the three fully-qualified names is invalid
or two of them collide. -/
lemma registerAll_eq_none_iff (pfx : Option String) (n1 n2 n3 : String) :
    Metrics.registerAll ⟨pfx, []⟩ n1 n2 n3 = none ↔
      (metricNameValid (fqOf pfx n1) = false ∨ metricNameValid (fqOf pfx n2) = false ∨
       metricNameValid (fqOf pfx n3) = false ∨
       fqOf pfx n2 = fqOf pfx n1 ∨ fqOf pfx n3 = fqOf pfx n1 ∨ fqOf pfx n3 = fqOf pfx n2) := by
  cases h1 : metricNameValid (fqOf pfx n1) with
  | false =>
    simp [Metrics.registerAll, Registry.register, Registry.fqName, h1, label_rpc_method_valid]
  | true =>
    cases h2 : metricNameValid (fqOf pfx n2) with
    | false =>
      simp [Metrics.registerAll, Registry.register, Registry.fqName, h1, h2,
        label_rpc_method_valid, List.contains, List.elem]
    | true =>
      by_cases d21 : fqOf pfx n2 = fqOf pfx n1
      · simp [Metrics.registerAll, Registry.register, Registry.fqName, h1, h2, d21,
          label_rpc_method_valid, List.contains, List.elem]
      · have e21 : (fqOf pfx n2 == fqOf pfx n1) = false := by
          simp [d21]
        have e12 : (fqOf pfx n1 == fqOf pfx n2) = false := by
          simp
          exact fun h => d21 h.symm
        cases h3 : metricNameValid (fqOf pfx n3) with
        | false =>
          simp [Metrics.registerAll, Registry.register, Registry.fqName, h1, h2, h3, d21, e21,
            label_rpc_method_valid, List.contains, List.elem]
        | true =>
          by_cases d31 : fqOf pfx n3 = fqOf pfx n1
          · simp [Metrics.registerAll, Registry.register, Registry.fqName, h1, h2, h3, d21,
              e21, e12, d31, label_rpc_method_valid, List.contains, List.elem]
          · have e31 : (fqOf pfx n3 == fqOf pfx n1) = false := by
              simp [d31]
            by_cases d32 : fqOf pfx n3 = fqOf pfx n2
            · simp [Metrics.registerAll, Registry.register, Registry.fqName, h1, h2, h3, d21,
                e21, d31, e31, d32, label_rpc_method_valid, List.contains, List.elem]
            · have e32 : (fqOf pfx n3 == fqOf pfx n2) = false := by
                simp [d32]
              simp [Metrics.registerAll, Registry.register, Registry.fqName, h1, h2, h3, d21,
                e21, d31, e31, d32, e32, label_rpc_method_valid, List.contains, List.elem]

/-- C1: every metric operation performed through one `Metrics` instance
leaves every metric of any other instance unchanged, and every counter
and histogram of a fresh `Metrics::new` instance reads 0 — regardless of
the operations performed on another instance. -/
theorem c1_isolated_registries (ops : List MetricOp) (w : Metrics × Metrics)
    (v : List String) :
    (opsOnFst ops w).2 = w.2 ∧
    (opsOnSnd ops w).1 = w.1 ∧
    Metrics.new.rpc_fetch_errors.get v = 0 ∧
    Metrics.new.nats_publish_errors.get v = 0 ∧
    Metrics.new.rpc_fetch_duration.get_sample_count v = 0 ∧
    (opsOnFst ops (Metrics.new, Metrics.new)).2.rpc_fetch_errors.get v = 0 :=
  ⟨rfl, rfl, rfl, rfl, rfl, rfl⟩

/-- C2: each of the three metric families of `Metrics::new` has exactly
one label dimension whose key is `"rpc_method"`, and each recording
operation addresses the child at the label value equal to the method
name. -/
theorem c2_single_label_dimension :
    Metrics.new.rpc_fetch_duration.labelNames = [LABEL_RPC_METHOD] ∧
    Metrics.new.rpc_fetch_errors.labelNames = [LABEL_RPC_METHOD] ∧
    Metrics.new.nats_publish_errors.labelNames = [LABEL_RPC_METHOD] ∧
    LABEL_RPC_METHOD = "rpc_method" ∧
    [LABEL_RPC_METHOD].length = 1 ∧
    (∀ (m : Metrics) (method : String),
      (m.recordFetchError method).rpc_fetch_errors = m.rpc_fetch_errors.inc [method]) ∧
    (∀ (m : Metrics) (method : String) (elapsed : ℚ),
      (m.observeDuration method elapsed).rpc_fetch_duration =
        m.rpc_fetch_duration.observe [method] elapsed) ∧
    (∀ (m : Metrics) (method : String),
      (m.recordPublishError method).nats_publish_errors =
        m.nats_publish_errors.inc [method]) :=
  ⟨rfl, rfl, rfl, rfl, rfl, fun _ _ => rfl, fun _ _ _ => rfl, fun _ _ => rfl⟩

/-- C3: registration failure is a startup-time fatal condition —
`Metrics::new` panics (here: `newChecked` yields `none`) exactly when
creating the registry fails or registering one of the three metrics
fails; with the concrete namespace and metric names of the source the
construction succeeds, yielding the `Metrics` value whose per-call
recording operations are total functions returning a new `Metrics` (no
error value in their type). -/
theorem c3_registration_failure_fatal :
    (∀ (ns : Option String) (n1 n2 n3 : String),
      Metrics.newChecked ns n1 n2 n3 = none ↔
        (ns = some "" ∨
         metricNameValid (fqOf ns n1) = false ∨ metricNameValid (fqOf ns n2) = false ∨
         metricNameValid (fqOf ns n3) = false ∨
         fqOf ns n2 = fqOf ns n1 ∨ fqOf ns n3 = fqOf ns n1 ∨ fqOf ns n3 = fqOf ns n2)) ∧
    Metrics.newChecked (some NAMESPACE) "rpc_fetch_duration_seconds"
      "rpc_fetch_errors_total" "nats_publish_errors_total" = some Metrics.new := by
  constructor
  · intro ns n1 n2 n3
    rcases ns with _ | p
    · rw [show Metrics.newChecked none n1 n2 n3 = Metrics.registerAll ⟨none, []⟩ n1 n2 n3 from rfl]
      rw [registerAll_eq_none_iff]
      simp
    · by_cases hp : p = ""
      · subst hp
        simp [Metrics.newChecked, Registry.new_custom]
      · rw [show Metrics.newChecked (some p) n1 n2 n3 =
          Metrics.registerAll ⟨some p, []⟩ n1 n2 n3 by
            simp [Metrics.newChecked, Registry.new_custom, hp]]
        rw [registerAll_eq_none_iff]
        simp [hp]
  · rfl

/-- C4: one call of the error-recording operation for method `m`
increases `rpc_fetch_errors` for `m` by exactly one and leaves the error
counter of every other method unchanged. -/
theorem c4_error_counter_increment (m : Metrics) (method other : String)
    (h : other ≠ method) :
    (m.recordFetchError method).rpc_fetch_errors.get [method] =
      m.rpc_fetch_errors.get [method] + 1 ∧
    (m.recordFetchError method).rpc_fetch_errors.get [other] =
      m.rpc_fetch_errors.get [other] := by
  constructor
  · simp [Metrics.recordFetchError, IntCounterVec.inc, IntCounterVec.get]
  · simp [Metrics.recordFetchError, IntCounterVec.inc, IntCounterVec.get, h]

/-- Witness for C4 at a fresh instance with methods `uptime` and
`getpeerinfo`. -/
theorem c4_error_counter_increment_witness :
    ("getpeerinfo" : String) ≠ "uptime" ∧
    ((Metrics.new.recordFetchError "uptime").rpc_fetch_errors.get ["uptime"] =
      Metrics.new.rpc_fetch_errors.get ["uptime"] + 1 ∧
     (Metrics.new.recordFetchError "uptime").rpc_fetch_errors.get ["getpeerinfo"] =
      Metrics.new.rpc_fetch_errors.get ["getpeerinfo"]) :=
  ⟨by decide, c4_error_counter_increment Metrics.new "uptime" "getpeerinfo" (by decide)⟩

/-- C5: each completed duration measurement for method `m` (one
observation on `rpc_fetch_duration`, as performed by a dropped timer)
increases the sample count of `m`'s duration histogram by exactly one. -/
theorem c5_histogram_sample_count (m : Metrics) (method : String) (elapsed : ℚ) :
    (m.observeDuration method elapsed).rpc_fetch_duration.get_sample_count [method] =
      m.rpc_fetch_duration.get_sample_count [method] + 1 := by
  simp [Metrics.observeDuration, HistogramVec.observe, HistogramVec.get_sample_count]

/-- C6: publish errors are recorded on a counter family distinct from the
RPC fetch errors: incrementing `nats_publish_errors` for a method
increments it by one and leaves that method's `rpc_fetch_errors` counter
unchanged, and the two families have distinct metric names. -/
theorem c6_publish_error_distinct (m : Metrics) (method : String) :
    (m.recordPublishError method).nats_publish_errors.get [method] =
      m.nats_publish_errors.get [method] + 1 ∧
    (m.recordPublishError method).rpc_fetch_errors.get [method] =
      m.rpc_fetch_errors.get [method] ∧
    Metrics.new.nats_publish_errors.name ≠ Metrics.new.rpc_fetch_errors.name := by
  refine ⟨?_, rfl, by decide⟩
  simp [Metrics.recordPublishError, IntCounterVec.inc, IntCounterVec.get]

/-- C9: with a username but neither a password nor a password file,
`prepare_connection` panics (the `unwrap()` on the absent password)
instead of returning an error. -/
theorem c9_prepare_connection_panics (fs : FileSystem) (addr user : String) :
    prepare_connection fs ⟨addr, some user, none, none⟩ = .panicked :=
  rfl

/-- C10: with a username, no explicit password and a password file: a
successful read yields `Ok` options whose password is the file contents
trimmed of leading and trailing whitespace; a failed read yields `Err`
with the underlying io error; and an explicitly supplied password always
takes precedence over the password file. -/
theorem c10_password_file_handling (fs : FileSystem) (addr user p : String) :
    (∀ contents, fs p = .ok contents →
      prepare_connection fs ⟨addr, some user, none, some p⟩ =
        .ok (ConnectOptions.new.user_and_password user contents.trim)) ∧
    (∀ e, fs p = .error e →
      prepare_connection fs ⟨addr, some user, none, some p⟩ = .err e) ∧
    (∀ pw, prepare_connection fs ⟨addr, some user, some pw, some p⟩ =
      .ok (ConnectOptions.new.user_and_password user pw)) := by
  refine ⟨?_, ?_, ?_⟩
  · intro contents h
    simp [prepare_connection, h]
  · intro e h
    simp [prepare_connection, h]
  · intro pw
    simp [prepare_connection]

/-- Witness for C10: a file system where the password file reads
`"  secret\n"`, one where every read fails, and an explicit password. -/
theorem c10_password_file_handling_witness :
    prepare_connection (fun _ => .ok "  secret\n")
        ⟨"127.0.0.1:4222", some "user1", none, some "/run/pw"⟩ =
      .ok (ConnectOptions.new.user_and_password "user1" ("  secret\n").trim) ∧
    prepare_connection (fun _ => .error "No such file or directory")
        ⟨"127.0.0.1:4222", some "user1", none, some "/run/pw"⟩ =
      .err "No such file or directory" ∧
    prepare_connection (fun _ => .error "No such file or directory")
        ⟨"127.0.0.1:4222", some "user1", some "explicit", some "/run/pw"⟩ =
      .ok (ConnectOptions.new.user_and_password "user1" "explicit") :=
  ⟨(c10_password_file_handling (fun _ => .ok "  secret\n") "127.0.0.1:4222" "user1"
      "/run/pw").1 "  secret\n" rfl,
   (c10_password_file_handling (fun _ => .error "No such file or directory") "127.0.0.1:4222"
      "user1" "/run/pw").2.1 "No such file or directory" rfl,
   (c10_password_file_handling (fun _ => .error "No such file or directory") "127.0.0.1:4222"
      "user1" "/run/pw").2.2 "explicit"⟩

/-! ### Scheduler lemmas -/

/-- A stopped scheduler state is terminal. -/
lemma schedStep_stopped (cfg : SchedConfig) (env : SchedEnv) (s : SchedState)
    (h : s.stopped = true) : schedStep cfg env s = s := by
  simp [schedStep, h]

lemma stepMany_nil (cfg : SchedConfig) (s : SchedState) : stepMany cfg [] s = s := rfl

lemma stepMany_cons (cfg : SchedConfig) (e : SchedEnv) (rest : List SchedEnv) (s : SchedState) :
    stepMany cfg (e :: rest) s = stepMany cfg rest (schedStep cfg e s) := rfl

/-- A stopped state stays stopped under any environment sequence. -/
lemma stepMany_stopped (cfg : SchedConfig) (envs : List SchedEnv) (s : SchedState)
    (h : s.stopped = true) : stepMany cfg envs s = s := by
  induction envs with
  | nil => rfl
  | cons e rest ih =>
    rw [stepMany_cons, schedStep_stopped cfg e s h]
    exact ih

/-- Unfolding of a scheduler tick once the shutdown flag is (or becomes)
set: resolve only, never dispatch, stop when nothing remains in flight. -/
lemma schedStep_sd (cfg : SchedConfig) (env : SchedEnv) (s : SchedState)
    (hstop : s.stopped = false) (hsd : (s.shutdown || env.shutdownNow) = true) :
    schedStep cfg env s =
      { due := s.due
        inflight := fun m => inflightAfterResolve env s m
        remaining := fun m => remainingAfterResolve env s m
        shutdown := true
        stopped := cfg.specs.all (fun sp => inflightAfterResolve env s sp.name == 0)
        durCount := fun m => s.durCount m + (if resolves env s m then 1 else 0)
        errCount := fun m => s.errCount m + (if failedNow env s m then 1 else 0) } := by
  simp [schedStep, hstop, hsd]

/-- Unfolding of a scheduler tick while running normally: resolve, then
dispatch the due set. -/
lemma schedStep_run (cfg : SchedConfig) (env : SchedEnv) (s : SchedState)
    (hstop : s.stopped = false) (hsd : (s.shutdown || env.shutdownNow) = false) :
    schedStep cfg env s =
      { due := fun m =>
          if firedNow cfg env s m then 0
          else
            match cfg.findSpec m with
            | some sp => if sp.enabled then s.due m + 1 else s.due m
            | none => s.due m
        inflight := fun m =>
          if firedNow cfg env s m then inflightAfterResolve env s m + 1
          else inflightAfterResolve env s m
        remaining := fun m =>
          if firedNow cfg env s m then cfg.timeout else remainingAfterResolve env s m
        shutdown := false
        stopped := false
        durCount := fun m => s.durCount m + (if resolves env s m then 1 else 0)
        errCount := fun m => s.errCount m + (if failedNow env s m then 1 else 0) } := by
  simp [schedStep, hstop, hsd]

lemma resolves_of_inflight_zero (env : SchedEnv) (s : SchedState) (m : String)
    (h : s.inflight m = 0) : resolves env s m = false := by
  simp [resolves, h]

lemma iAR_le (env : SchedEnv) (s : SchedState) (m : String) :
    inflightAfterResolve env s m ≤ s.inflight m := by
  unfold inflightAfterResolve
  split <;> omega

lemma iAR_of_inflight_zero (env : SchedEnv) (s : SchedState) (m : String)
    (h : s.inflight m = 0) : inflightAfterResolve env s m = 0 := by
  unfold inflightAfterResolve
  split <;> omega

/-- An in-flight call whose budget is exhausted is forcibly resolved. -/
lemma resolves_of_forced (env : SchedEnv) (s : SchedState) (m : String)
    (hin : s.inflight m ≠ 0) (hr : s.remaining m ≤ 1) : resolves env s m = true := by
  simp [resolves, hin, hr]

lemma iAR_of_not_resolves (env : SchedEnv) (s : SchedState) (m : String)
    (h : resolves env s m = false) : inflightAfterResolve env s m = s.inflight m := by
  simp [inflightAfterResolve, h]

lemma rAR_of_resolves (env : SchedEnv) (s : SchedState) (m : String)
    (h : resolves env s m = true) : remainingAfterResolve env s m = 0 := by
  simp [remainingAfterResolve, h]

lemma rAR_of_not_resolves (env : SchedEnv) (s : SchedState) (m : String)
    (h : resolves env s m = false) (hin : s.inflight m ≠ 0) :
    remainingAfterResolve env s m = s.remaining m - 1 := by
  simp [remainingAfterResolve, h, hin]

/-- Not resolving an in-flight call means its budget was not exhausted. -/
lemma remaining_ge_of_not_resolves (env : SchedEnv) (s : SchedState) (m : String)
    (h : resolves env s m = false) (hin : s.inflight m ≠ 0) : 2 ≤ s.remaining m := by
  by_contra hlt
  have : s.remaining m ≤ 1 := by omega
  rw [resolves_of_forced env s m hin this] at h
  exact Bool.true_eq_false.mp h

/-- A method fires only when no call of it remains in flight. -/
lemma fired_iAR_zero (cfg : SchedConfig) (env : SchedEnv) (s : SchedState) (m : String)
    (h : firedNow cfg env s m = true) : inflightAfterResolve env s m = 0 := by
  unfold firedNow at h
  cases hfs : cfg.findSpec m with
  | none => rw [hfs] at h; exact absurd h (by simp)
  | some sp =>
    rw [hfs] at h
    simp only [Bool.and_eq_true, beq_iff_eq] at h
    exact h.2

lemma fired_of_findSpec_none (cfg : SchedConfig) (env : SchedEnv) (s : SchedState) (m : String)
    (h : cfg.findSpec m = none) : firedNow cfg env s m = false := by
  simp [firedNow, h]

/-- The scheduler invariant holds initially. -/
lemma sched_inv_init (cfg : SchedConfig) : SchedInv cfg schedInit := by
  refine ⟨fun m => ?_, fun m h => ?_, fun m _ => rfl, fun h => ?_⟩
  · simp [schedInit]
  · exact absurd rfl h
  · exact absurd h (by simp [schedInit])

/-- The scheduler invariant is preserved by every tick. -/
lemma sched_inv_step (cfg : SchedConfig) (env : SchedEnv) (s : SchedState)
    (h : SchedInv cfg s) : SchedInv cfg (schedStep cfg env s) := by
  obtain ⟨h1, h2, h3, h4⟩ := h
  by_cases hstop : s.stopped = true
  · rw [schedStep_stopped cfg env s hstop]
    exact ⟨h1, h2, h3, h4⟩
  · replace hstop : s.stopped = false := by
      revert hstop
      cases s.stopped <;> simp
    by_cases hsd : (s.shutdown || env.shutdownNow) = true
    · rw [schedStep_sd cfg env s hstop hsd]
      refine ⟨fun m => le_trans (iAR_le env s m) (h1 m), fun m hm => ?_, fun m hm => ?_,
        fun hst => ⟨rfl, fun m => ?_⟩⟩
      · replace hm : inflightAfterResolve env s m ≠ 0 := hm
        show remainingAfterResolve env s m ≤ cfg.timeout
        cases hres : resolves env s m with
        | true => rw [rAR_of_resolves env s m hres]; omega
        | false =>
          have hin : s.inflight m ≠ 0 := by
            intro h0
            rw [iAR_of_not_resolves env s m hres] at hm
            exact hm h0
          rw [rAR_of_not_resolves env s m hres hin]
          have := h2 m hin
          omega
      · exact iAR_of_inflight_zero env s m (h3 m hm)
      · show inflightAfterResolve env s m = 0
        simp only [List.all_eq_true] at hst
        cases hfs : cfg.findSpec m with
        | none => exact iAR_of_inflight_zero env s m (h3 m hfs)
        | some sp =>
          have hmem : sp ∈ cfg.specs := List.mem_of_find?_eq_some hfs
          have hname : sp.name = m := by
            have := List.find?_some hfs
            simpa using this
          have := hst sp hmem
          rw [hname] at this
          simpa using this
    · replace hsd : (s.shutdown || env.shutdownNow) = false := by
        revert hsd
        cases s.shutdown || env.shutdownNow <;> simp
      rw [schedStep_run cfg env s hstop hsd]
      refine ⟨fun m => ?_, fun m hm => ?_, fun m hm => ?_, fun hst => absurd hst (by simp)⟩
      · show (if firedNow cfg env s m then inflightAfterResolve env s m + 1
          else inflightAfterResolve env s m) ≤ 1
        cases hf : firedNow cfg env s m with
        | true => simp [hf, fired_iAR_zero cfg env s m hf]
        | false => simp [hf, le_trans (iAR_le env s m) (h1 m)]
      · show (if firedNow cfg env s m then cfg.timeout else remainingAfterResolve env s m) ≤
          cfg.timeout
        cases hf : firedNow cfg env s m with
        | true => simp [hf]
        | false =>
          replace hm : (if firedNow cfg env s m = true then inflightAfterResolve env s m + 1
            else inflightAfterResolve env s m) ≠ 0 := hm
          simp only [hf] at hm ⊢
          simp only [Bool.false_eq_true, if_false] at hm ⊢
          cases hres : resolves env s m with
          | true => rw [rAR_of_resolves env s m hres]; omega
          | false =>
            have hin : s.inflight m ≠ 0 := by
              intro h0
              rw [iAR_of_not_resolves env s m hres] at hm
              exact hm h0
            rw [rAR_of_not_resolves env s m hres hin]
            have := h2 m hin
            omega
      · show (if firedNow cfg env s m then inflightAfterResolve env s m + 1
          else inflightAfterResolve env s m) = 0
        rw [fired_of_findSpec_none cfg env s m hm]
        simp [iAR_of_inflight_zero env s m (h3 m hm)]

/-- Every reachable scheduler state satisfies the invariant. -/
lemma sched_inv_reachable (cfg : SchedConfig) (s : SchedState)
    (h : SchedReachable cfg s) : SchedInv cfg s := by
  induction h with
  | init => exact sched_inv_init cfg
  | step env _ ih => exact sched_inv_step cfg env _ ih

/-- Draining: a shutdown state in which every in-flight call has at most
`k` ticks of budget left reaches `Stopped` within `k` ticks, whatever the
environment does. -/
lemma sched_drain (cfg : SchedConfig) :
    ∀ (k : Nat) (s : SchedState) (envs : List SchedEnv),
    s.shutdown = true →
    (∀ m, s.inflight m ≤ 1) →
    (∀ m, s.inflight m ≠ 0 → s.remaining m ≤ k) →
    1 ≤ k → envs.length = k →
    (stepMany cfg envs s).stopped = true := by
  intro k
  induction k with
  | zero => intro s envs _ _ _ hk _; omega
  | succ k ih =>
    intro s envs hsd h1 hrem _ hlen
    cases envs with
    | nil => simp at hlen
    | cons e rest =>
      have hlen' : rest.length = k := by simpa using hlen
      by_cases hstop : s.stopped = true
      · rw [stepMany_cons, schedStep_stopped cfg e s hstop, stepMany_stopped cfg rest s hstop]
        exact hstop
      · replace hstop : s.stopped = false := by
          revert hstop
          cases s.stopped <;> simp
        have hsdb : (s.shutdown || e.shutdownNow) = true := by simp [hsd]
        rw [stepMany_cons, schedStep_sd cfg e s hstop hsdb]
        rcases Nat.eq_zero_or_pos k with hk0 | hkpos
        · subst hk0
          cases rest with
          | cons e2 r2 => simp at hlen'
          | nil =>
            rw [stepMany_nil]
            show cfg.specs.all (fun sp => inflightAfterResolve e s sp.name == 0) = true
            rw [List.all_eq_true]
            intro sp hsp
            simp only [beq_iff_eq]
            by_cases hin : s.inflight sp.name = 0
            · exact iAR_of_inflight_zero e s sp.name hin
            · have hr : s.remaining sp.name ≤ 1 := hrem sp.name hin
              have hres := resolves_of_forced e s sp.name hin hr
              have hle := h1 sp.name
              unfold inflightAfterResolve
              rw [hres]
              simp only [if_true]
              omega
        · refine ih _ rest rfl ?_ ?_ hkpos hlen'
          · intro m
            exact le_trans (iAR_le e s m) (h1 m)
          · intro m hm
            replace hm : inflightAfterResolve e s m ≠ 0 := hm
            show remainingAfterResolve e s m ≤ k
            cases hres : resolves e s m with
            | true => rw [rAR_of_resolves e s m hres]; omega
            | false =>
              have hin : s.inflight m ≠ 0 := by
                intro h0
                rw [iAR_of_not_resolves e s m hres] at hm
                exact hm h0
              rw [rAR_of_not_resolves e s m hres hin]
              have := hrem m hin
              omega

/-- C7: at most one fetch per method is ever in flight; a method whose
call has not resolved is not double-dispatched (it still has exactly one
call in flight after the tick); and the dispatch decision for any method
that is due and idle is taken regardless of the others — it fires on that
tick. -/
theorem c7_no_overlap (cfg : SchedConfig) (s : SchedState) (h : SchedReachable cfg s) :
    (∀ m, s.inflight m ≤ 1) ∧
    (∀ (env : SchedEnv) (m : String), s.inflight m = 1 → env.resolve m = none →
      2 ≤ s.remaining m → (schedStep cfg env s).inflight m = 1) ∧
    (∀ (env : SchedEnv) (m : String), s.stopped = false →
      (s.shutdown || env.shutdownNow) = false → firedNow cfg env s m = true →
      (schedStep cfg env s).inflight m = inflightAfterResolve env s m + 1) := by
  obtain ⟨h1, h2, h3, h4⟩ := sched_inv_reachable cfg s h
  refine ⟨h1, ?_, ?_⟩
  · intro env m hin hres hrem
    have hnres : resolves env s m = false := by
      simp [resolves, hin, hres]
      omega
    have hstop : s.stopped = false := by
      cases hst : s.stopped
      · rfl
      · have := (h4 hst).2 m
        rw [this] at hin
        exact absurd hin (by simp)
    by_cases hsd : (s.shutdown || env.shutdownNow) = true
    · rw [schedStep_sd cfg env s hstop hsd]
      show inflightAfterResolve env s m = 1
      rw [iAR_of_not_resolves env s m hnres]
      exact hin
    · replace hsd : (s.shutdown || env.shutdownNow) = false := by
        revert hsd
        cases s.shutdown || env.shutdownNow <;> simp
      rw [schedStep_run cfg env s hstop hsd]
      have hf : firedNow cfg env s m = false := by
        cases hff : firedNow cfg env s m
        · rfl
        · have := fired_iAR_zero cfg env s m hff
          rw [iAR_of_not_resolves env s m hnres, hin] at this
          exact absurd this (by simp)
      show (if firedNow cfg env s m = true then inflightAfterResolve env s m + 1
        else inflightAfterResolve env s m) = 1
      simp only [hf, Bool.false_eq_true, if_false]
      rw [iAR_of_not_resolves env s m hnres]
      exact hin
  · intro env m hstop hsd hf
    rw [schedStep_run cfg env s hstop hsd]
    show (if firedNow cfg env s m = true then inflightAfterResolve env s m + 1
      else inflightAfterResolve env s m) = inflightAfterResolve env s m + 1
    simp only [hf, if_true]

/-- C8: from any reachable state in which the shutdown signal has been
observed, no tick ever increases any method's in-flight count (no new
fetch is dispatched); a resolving in-flight fetch still records its
duration metric; and, provided the configured per-call timeout is at
least one tick, the scheduler is in the terminal `Stopped` state after
`timeout` ticks, whatever the environment does. -/
theorem c8_shutdown_drain (cfg : SchedConfig) (s : SchedState) (h : SchedReachable cfg s)
    (hsd : s.shutdown = true) :
    (∀ (env : SchedEnv) (m : String), (schedStep cfg env s).inflight m ≤ s.inflight m) ∧
    (∀ (env : SchedEnv) (m : String), s.inflight m = 1 → resolves env s m = true →
      (schedStep cfg env s).durCount m = s.durCount m + 1) ∧
    (1 ≤ cfg.timeout → ∀ envs : List SchedEnv, envs.length = cfg.timeout →
      (stepMany cfg envs s).stopped = true) := by
  obtain ⟨h1, h2, h3, h4⟩ := sched_inv_reachable cfg s h
  refine ⟨?_, ?_, ?_⟩
  · intro env m
    by_cases hstop : s.stopped = true
    · rw [schedStep_stopped cfg env s hstop]
    · replace hstop : s.stopped = false := by
        revert hstop
        cases s.stopped <;> simp
      have hsdb : (s.shutdown || env.shutdownNow) = true := by simp [hsd]
      rw [schedStep_sd cfg env s hstop hsdb]
      exact iAR_le env s m
  · intro env m hin hres
    have hstop : s.stopped = false := by
      cases hst : s.stopped
      · rfl
      · have := (h4 hst).2 m
        rw [this] at hin
        exact absurd hin (by simp)
    have hsdb : (s.shutdown || env.shutdownNow) = true := by simp [hsd]
    rw [schedStep_sd cfg env s hstop hsdb]
    show s.durCount m + (if resolves env s m = true then 1 else 0) = s.durCount m + 1
    simp [hres]
  · intro htime envs hlen
    exact sched_drain cfg cfg.timeout s envs hsd h1 h2 htime hlen

/-- A one-method catalog with a five-tick timeout, used as a concrete
scheduler configuration. -/
def cfgW : SchedConfig := ⟨[⟨"uptime", true, 1⟩], 5⟩

/-- An environment in which nothing resolves and the shutdown signal
arrives. -/
def envSd : SchedEnv := ⟨fun _ => none, true⟩

/-- Witness for C7 at the initial state of the one-method catalog. -/
theorem c7_no_overlap_witness :
    SchedReachable cfgW schedInit ∧
    ((∀ m, schedInit.inflight m ≤ 1) ∧
     (∀ (env : SchedEnv) (m : String), schedInit.inflight m = 1 → env.resolve m = none →
       2 ≤ schedInit.remaining m → (schedStep cfgW env schedInit).inflight m = 1) ∧
     (∀ (env : SchedEnv) (m : String), schedInit.stopped = false →
       (schedInit.shutdown || env.shutdownNow) = false → firedNow cfgW env schedInit m = true →
       (schedStep cfgW env schedInit).inflight m =
         inflightAfterResolve env schedInit m + 1)) :=
  ⟨SchedReachable.init, c7_no_overlap cfgW schedInit SchedReachable.init⟩

/-- Witness for C8 at the state reached after one tick in which the
shutdown signal arrived. -/
theorem c8_shutdown_drain_witness :
    (schedStep cfgW envSd schedInit).shutdown = true ∧
    ((∀ (env : SchedEnv) (m : String),
       (schedStep cfgW env (schedStep cfgW envSd schedInit)).inflight m ≤
         (schedStep cfgW envSd schedInit).inflight m) ∧
     (∀ (env : SchedEnv) (m : String), (schedStep cfgW envSd schedInit).inflight m = 1 →
       resolves env (schedStep cfgW envSd schedInit) m = true →
       (schedStep cfgW env (schedStep cfgW envSd schedInit)).durCount m =
         (schedStep cfgW envSd schedInit).durCount m + 1) ∧
     (1 ≤ cfgW.timeout → ∀ envs : List SchedEnv, envs.length = cfgW.timeout →
       (stepMany cfgW envs (schedStep cfgW envSd schedInit)).stopped = true)) :=
  ⟨rfl, c8_shutdown_drain cfgW (schedStep cfgW envSd schedInit)
    (SchedReachable.step envSd SchedReachable.init) rfl⟩
